import Mathlib

/-!
# Verification of the finetrainers training orchestrator

Shallow embedding of `src/finetrainers/trainer.py` (the `Trainer` class):
the flow-matching noise injection and loss (`Trainer.train`, lines 682-718),
the epoch/step loop with its gradient-synchronization, checkpointing,
validation and termination logic (lines 620-780), the precomputation phase
(`Trainer.prepare_precomputations`, lines 177-341), the round-robin
validation-prompt assignment (`Trainer.validate`, lines 853-857), the
caption-dropout branches (lines 631-680) and the precision-restoration tail
of `load_model_hook` (lines 458-463).

Tensors are modelled as functions `Fin B → Fin D → ℚ` (batch index, then all
non-batch dimensions flattened); machine scalars as `ℚ`/`ℕ`; the stateful
loop as explicit recursion producing an event trace; fallible configuration
checks as `Except`.
-/

namespace Finetrainers

/-! ## Flow-matching noise injection and loss (trainer.py lines 682-718) -/

/-- `noisy_latents = (1.0 - sigmas) * latents + sigmas * noise` (line 701).
`sigmas` has been expanded by `expand_tensor_to_dims` to broadcast one sigma
per batch example over all non-batch dimensions (line 700). -/
def noisyLatents {B D : ℕ} (sigmas : Fin B → ℚ) (latents noise : Fin B → Fin D → ℚ) :
    Fin B → Fin D → ℚ :=
  fun b d => (1 - sigmas b) * latents b d + sigmas b * noise b d

/-- `torch.Tensor.mean` over the flattened dimensions of one example (or over
the batch dimension): sum divided by the number of elements. -/
def tensorMean (n : ℕ) (f : Fin n → ℚ) : ℚ :=
  (∑ d, f d) / n

/-- `target = noise - latent_conditions["latents"]` (line 712). -/
def flowTarget {B D : ℕ} (noise latents : Fin B → Fin D → ℚ) : Fin B → Fin D → ℚ :=
  fun b d => noise b d - latents b d

/-- Lines 714-718: `loss = weights * (pred - target).pow(2)`, then
`loss.mean(list(range(1, loss.ndim)))` (mean over every non-batch dimension
of each example), then `loss.mean()` (mean over the batch).  The loss weight
`weight b` is one scalar per batch example: `compute_loss_weighting_for_sd3`
is applied to the per-example sigmas and broadcasts like them. -/
def stepLoss {B D : ℕ} (weight : Fin B → ℚ) (pred target : Fin B → Fin D → ℚ) : ℚ :=
  tensorMean B (fun b => tensorMean D (fun d => weight b * (pred b d - target b d) ^ 2))

/-! ## The epoch/step loop (trainer.py lines 620-780)

One micro-batch is one iteration of `for step, batch in enumerate(self.dataloader)`.
`accelerator.sync_gradients` is true on a micro-batch exactly when the
gradient-accumulation window of `N` micro-batches completes there or it is the
last micro-batch of the dataloader (accelerate synchronizes at the end of a
prepared dataloader), which is what makes
`num_update_steps_per_epoch = ceil(len(dataloader) / N)` (line 553) the number
of optimizer updates per full epoch. -/

/-- Whether micro-batch `m` (0-based) of an epoch with `L` micro-batches and
accumulation window `N` is a gradient-synchronization boundary. -/
def syncAt (N L m : ℕ) : Bool :=
  (m + 1) % N == 0 || m + 1 == L

/-- The sequence of synchronization flags of one epoch. -/
def epochFlags (N L : ℕ) : List Bool :=
  (List.range L).map (fun m => syncAt N L m)

/-- What one micro-batch did: whether gradients were synchronized (an
optimizer update happened), the value of `global_step` after the micro-batch,
whether a checkpoint was saved and whether step-triggered validation ran. -/
structure MicroEvent where
  syncGradients : Bool
  globalStepAfter : ℕ
  checkpointSaved : Bool
  validationRan : Bool
deriving DecidableEq

/-- The inner step loop (lines 626-769), at micro-batch granularity, given the
remaining synchronization flags of the epoch.  Per micro-batch: if gradients
synchronize, `global_step += 1` and a checkpoint is saved when
`global_step % checkpointing_steps == 0` (lines 741-753, main-process view);
then, on EVERY micro-batch, validation runs when `validation_every_n_steps`
is set and `global_step % validation_every_n_steps == 0` (lines 756-761);
then `if global_step >= train_steps: break` (lines 768-769).
Returns the final `global_step` and the event trace. -/
def stepEvents (T ckptSteps : ℕ) (valSteps : Option ℕ) : ℕ → List Bool → ℕ × List MicroEvent
  | gs, [] => (gs, [])
  | gs, u :: rest =>
    let gs1 := if u then gs + 1 else gs
    let ev : MicroEvent :=
      { syncGradients := u
        globalStepAfter := gs1
        checkpointSaved := u && gs1 % ckptSteps == 0
        validationRan := valSteps.elim false (fun v => gs1 % v == 0) }
    if T ≤ gs1 then (gs1, [ev])
    else
      let r := stepEvents T ckptSteps valSteps gs1 rest
      (r.1, ev :: r.2)

/-- The epoch loop `for epoch in range(first_epoch, train_epochs)` (line 620),
given the number of remaining epochs.  The `break` at line 769 only exits the
inner step loop: the next epoch still begins. -/
def epochEvents (T N L ckptSteps : ℕ) (valSteps : Option ℕ) : ℕ → ℕ → ℕ × List MicroEvent
  | gs, 0 => (gs, [])
  | gs, e + 1 =>
    let r := stepEvents T ckptSteps valSteps gs (epochFlags N L)
    let r2 := epochEvents T N L ckptSteps valSteps r.1 e
    (r2.1, r.2 ++ r2.2)

/-- `num_update_steps_per_epoch = math.ceil(len(self.dataloader) / self.args.gradient_accumulation_steps)`
(line 553). -/
def numUpdateStepsPerEpoch (L N : ℕ) : ℕ :=
  (L + N - 1) / N

/-- `self.state.train_epochs = math.ceil(self.state.train_steps / num_update_steps_per_epoch)`
(line 557). -/
def trainEpochs (T S : ℕ) : ℕ :=
  (T + S - 1) / S

/-- The whole training loop of `Trainer.train`, from initial `global_step`
`gs0` and `first_epoch`, with `train_steps = T`, accumulation window `N` and
`L` micro-batches per epoch: runs `trainEpochs - first_epoch` epochs. -/
def trainEvents (T N L ckptSteps : ℕ) (valSteps : Option ℕ) (gs0 firstEpoch : ℕ) :
    ℕ × List MicroEvent :=
  epochEvents T N L ckptSteps valSteps gs0 (trainEpochs T (numUpdateStepsPerEpoch L N) - firstEpoch)

/-- Modelled from the spec: `get_latest_ckpt_path_to_resume_from`
(`finetrainers/utils/checkpointing.py`, not under `src/`) resumes from a
checkpoint taken at step `resumedStep` with
`global_step = resumedStep` and `first_epoch = resumedStep // num_update_steps_per_epoch`
(spec section 4.3: "Resume correctness: resuming from checkpoint at step S with
per-epoch step count E yields first_epoch == S // E and initial_step == S"). -/
def resumePoint (resumedStep stepsPerEpoch : ℕ) : ℕ × ℕ :=
  (resumedStep, resumedStep / stepsPerEpoch)

/-! ## Precomputation (trainer.py lines 177-341) -/

/-- The externally observable actions `Trainer.prepare_precomputations` can
perform, in program order: loading encoder models, warning about caption
dropout, encoding and persisting per-sample artifacts, the cross-process
barrier, and installing the dataloader over the precomputed cache. -/
inductive PrecompAction where
  | loadConditionModels
  | warnCaptionDropout
  | prepareConditionsCall (sampleIndex : ℕ)
  | saveConditions (sampleIndex shardIndex : ℕ)
  | loadLatentModels
  | prepareLatentsCall (sampleIndex : ℕ)
  | saveLatents (rank shardIndex : ℕ)
  | barrier
  | buildPrecompDataloader
deriving DecidableEq

/-- The configuration and environment `prepare_precomputations` reads. -/
structure PrecompConfig where
  precomputeConditions : Bool
  batchSize : ℕ
  datasetLen : ℕ
  conditionCount : ℕ
  latentCount : ℕ
  numProcesses : ℕ
  processIndex : ℕ
  captionDropoutP : ℚ
  captionDropoutTechnique : String

/-- Modelled from the spec: `should_perform_precomputation`
(`finetrainers/utils/data_utils.py`, not under `src/`) reports that
precomputation must run; per spec section 4.1 a cache is complete exactly when
the artifact counts of both the conditions and the latents directory equal the
dataset length, and a complete cache short-circuits precomputation. -/
def shouldPerformPrecomputation (conditionCount latentCount datasetLen : ℕ) : Bool :=
  !(conditionCount == datasetLen && latentCount == datasetLen)

/-- The dataset indices processed by one process: `for i, data in enumerate(self.dataset)`
with `if i % num_processes != process_index: continue` (lines 252-254 and 304-305). -/
def shardIndices (len P rank : ℕ) : List ℕ :=
  (List.range len).filter (fun i => i % P == rank)

/-- Phase 1 (lines 245-274): for each owned sample `i`, encode its conditions
and save them as `conditions-{i}-{index}.pt`, where `index` counts the owned
samples processed so far. -/
def conditionPhaseActions (len P rank : ℕ) : List PrecompAction :=
  ((shardIndices len P rank).enum.map
    (fun p => [PrecompAction.prepareConditionsCall p.2, PrecompAction.saveConditions p.2 p.1])).flatten

/-- Phase 2 (lines 298-323): for each owned sample `i`, encode its latents and
save them as `latents-{process_index}-{index}.pt`. -/
def latentPhaseActions (len P rank : ℕ) : List PrecompAction :=
  ((shardIndices len P rank).enum.map
    (fun p => [PrecompAction.prepareLatentsCall p.2, PrecompAction.saveLatents rank p.1])).flatten

/-- `Trainer.prepare_precomputations` (lines 177-341): returns either the
fatal configuration error or the list of performed actions in program order.
The batch-size check (line 183) precedes everything else; a complete cache
(line 205) short-circuits to installing the cache-backed dataloader; otherwise
both phases run, with the caption-dropout warning (lines 235-238) emitted
after the condition encoders are loaded. -/
def preparePrecomputations (cfg : PrecompConfig) : Except String (List PrecompAction) :=
  if cfg.precomputeConditions = false then Except.ok []
  else if cfg.batchSize ≠ 1 then
    Except.error "Precomputation is only supported with batch size 1. This will be supported in future."
  else if shouldPerformPrecomputation cfg.conditionCount cfg.latentCount cfg.datasetLen = false then
    Except.ok [PrecompAction.buildPrecompDataloader]
  else
    Except.ok
      ([PrecompAction.loadConditionModels]
        ++ (if 0 < cfg.captionDropoutP ∧ cfg.captionDropoutTechnique = "empty" then
              [PrecompAction.warnCaptionDropout] else [])
        ++ conditionPhaseActions cfg.datasetLen cfg.numProcesses cfg.processIndex
        ++ [PrecompAction.loadLatentModels]
        ++ latentPhaseActions cfg.datasetLen cfg.numProcesses cfg.processIndex
        ++ [PrecompAction.barrier, PrecompAction.buildPrecompDataloader])

/-! ## Round-robin validation-prompt assignment (trainer.py lines 854-857) -/

/-- The validation prompt indices generated by process `rank`:
`for i in range(num_validation_samples)` with
`if i % num_processes != process_index: continue`. -/
def validationAssigned (P rank V : ℕ) : Finset ℕ :=
  (Finset.range V).filter (fun i => i % P = rank)

/-! ## Caption dropout (trainer.py lines 631-680) -/

/-- The text-conditioning tensors of a batch.  `prompt_embeds` and the
optional `pooled_prompt_embeds` are flattened to value lists; the attention
mask is a list of booleans. -/
structure TextConditions where
  promptEmbeds : List ℚ
  promptAttentionMask : List Bool
  pooledPromptEmbeds : Option (List ℚ)
deriving DecidableEq

/-- Lines 675-680: `text_conditions["prompt_embeds"].fill_(0)`,
`text_conditions["prompt_attention_mask"].fill_(False)`, and when present
`text_conditions["pooled_prompt_embeds"].fill_(0)` — every entry is
overwritten in place, shapes are kept. -/
def applyZeroDropout (tc : TextConditions) : TextConditions :=
  { promptEmbeds := tc.promptEmbeds.map (fun _ => 0)
    promptAttentionMask := tc.promptAttentionMask.map (fun _ => false)
    pooledPromptEmbeds := tc.pooledPromptEmbeds.map (fun l => l.map (fun _ => 0)) }

/-- The text-conditioning portion of one training step (lines 631-680).
In the live path (`precompute = false`): when the technique is `"empty"` and
the first random draw `r1` is below `caption_dropout_p`, the prompt list is
replaced by `[""] * batch_size` before `prepare_conditions` runs (lines
636-638); the conditions are then computed by `prep`.  In the precomputed path
the conditions come from the batch (line 660) and the `"empty"` branch is
unreachable.  In both paths, when the technique is `"zero"` and the second
random draw `r2` is below `caption_dropout_p`, the computed conditions are
zeroed afterwards (lines 673-680).  `random.random()` draws satisfy
`0 ≤ r < 1`. -/
def trainStepTextConditions (precompute : Bool) (technique : String) (p r1 r2 : ℚ)
    (prompts : List String) (precomputedTC : TextConditions)
    (prep : List String → TextConditions) : TextConditions :=
  let tc :=
    if precompute = false then
      prep (if technique = "empty" ∧ r1 < p then List.replicate prompts.length "" else prompts)
    else precomputedTC
  if technique = "zero" ∧ r2 < p then applyZeroDropout tc else tc

/-! ## Precision restoration in `load_model_hook` (trainer.py lines 458-463) -/

/-- Torch floating-point widths used for the transformer weights. -/
inductive DType where
  | fp32
  | fp16
  | bf16
deriving DecidableEq

/-- One model parameter: whether it is trainable (a LoRA adapter parameter)
and its dtype.  Frozen backbone parameters have `requiresGrad = false`. -/
structure Param where
  requiresGrad : Bool
  dtype : DType
deriving DecidableEq

/-- `diffusers.training_utils.cast_training_params` with its default target
dtype: every parameter with `requires_grad` is cast to `float32`; all other
parameters are left untouched. -/
def castTrainingParams (ps : List Param) : List Param :=
  ps.map (fun q => if q.requiresGrad then { q with dtype := DType.fp32 } else q)

/-- The tail of `load_model_hook` (lines 458-463): after the adapter state
dict is loaded, `if self.args.mixed_precision == "fp16": cast_training_params([transformer_])`. -/
def loadHookPrecision (mixedPrecision : String) (ps : List Param) : List Param :=
  if mixedPrecision = "fp16" then castTrainingParams ps else ps

/-! ## Theorems -/

/-- C1: for every clean latent tensor, noise tensor of the same shape and
per-example sigma, the noisy input of the training step equals
`(1 - sigma) * clean + sigma * noise` elementwise; at `sigma = 0` it equals
the clean latent, at `sigma = 1` the noise, and at `sigma = 1/2` the
arithmetic mean of the two. -/
theorem c1_flow_matching_interpolation {B D : ℕ} (sigmas : Fin B → ℚ)
    (latents noise : Fin B → Fin D → ℚ) (b : Fin B) :
    (∀ d, noisyLatents sigmas latents noise b d
        = (1 - sigmas b) * latents b d + sigmas b * noise b d) ∧
    (sigmas b = 0 → ∀ d, noisyLatents sigmas latents noise b d = latents b d) ∧
    (sigmas b = 1 → ∀ d, noisyLatents sigmas latents noise b d = noise b d) ∧
    (sigmas b = 1 / 2 → ∀ d, noisyLatents sigmas latents noise b d
        = (latents b d + noise b d) / 2) := by
  refine ⟨fun d => rfl, fun h d => ?_, fun h d => ?_, fun h d => ?_⟩ <;>
    simp only [noisyLatents, h] <;> ring

/-- Witness for C1 at concrete inputs: with clean latent value `3` and noise
value `5`, sigma `0` gives `3`, sigma `1` gives `5`, sigma `1/2` gives the
mean `(3 + 5) / 2`. -/
theorem c1_flow_matching_interpolation_witness :
    noisyLatents (fun _ : Fin 1 => (0 : ℚ)) (fun _ _ : Fin 1 => 3) (fun _ _ => 5) 0 0 = 3 ∧
    noisyLatents (fun _ : Fin 1 => (1 : ℚ)) (fun _ _ : Fin 1 => 3) (fun _ _ => 5) 0 0 = 5 ∧
    noisyLatents (fun _ : Fin 1 => (1 / 2 : ℚ)) (fun _ _ : Fin 1 => 3) (fun _ _ => 5) 0 0
      = (3 + 5) / 2 :=
  ⟨(c1_flow_matching_interpolation (fun _ => 0) (fun _ _ => 3) (fun _ _ => 5) 0).2.1 rfl 0,
   (c1_flow_matching_interpolation (fun _ => 1) (fun _ _ => 3) (fun _ _ => 5) 0).2.2.1 rfl 0,
   (c1_flow_matching_interpolation (fun _ => 1 / 2) (fun _ _ => 3) (fun _ _ => 5) 0).2.2.2 rfl 0⟩

/-- C2: the regression target is `noise - clean_latent`, and the scalar loss
is the per-scheme sigma-dependent weight times the squared error between the
prediction and that target, first averaged over all non-batch dimensions of
each example and then over the batch (equivalently, the grand weighted mean
over all `B * D` entries). -/
theorem c2_flow_matching_loss {B D : ℕ} (sigmas : Fin B → ℚ) (lossWeight : ℚ → ℚ)
    (pred noise latents : Fin B → Fin D → ℚ) :
    flowTarget noise latents = (fun b d => noise b d - latents b d) ∧
    stepLoss (fun b => lossWeight (sigmas b)) pred (flowTarget noise latents)
      = (∑ b, (∑ d, lossWeight (sigmas b) * (pred b d - (noise b d - latents b d)) ^ 2) / (D : ℚ))
          / (B : ℚ) ∧
    stepLoss (fun b => lossWeight (sigmas b)) pred (flowTarget noise latents)
      = (∑ b, ∑ d, lossWeight (sigmas b) * (pred b d - (noise b d - latents b d)) ^ 2)
          / ((B : ℚ) * (D : ℚ)) := by
  refine ⟨rfl, rfl, ?_⟩
  show (∑ b, (∑ d, lossWeight (sigmas b) * (pred b d - (noise b d - latents b d)) ^ 2) / (D : ℚ))
      / (B : ℚ) = _
  rw [← Finset.sum_div, div_div, mul_comm]

/-- C5: with precomputation enabled and batch size different from 1,
`prepare_precomputations` fails with the batch-size configuration error
before performing any action; with batch size 1 the error branch is
unreachable (the call returns an action list). -/
theorem c5_precompute_batch_size_check (cfg : PrecompConfig) :
    (cfg.precomputeConditions = true → cfg.batchSize ≠ 1 →
      preparePrecomputations cfg
        = Except.error
            "Precomputation is only supported with batch size 1. This will be supported in future.") ∧
    (cfg.batchSize = 1 → ∃ l, preparePrecomputations cfg = Except.ok l) := by
  constructor
  · intro hp hb
    simp [preparePrecomputations, hp, hb]
  · intro hb
    unfold preparePrecomputations
    split
    · exact ⟨_, rfl⟩
    · split
      · next hne => exact absurd hb hne
      · split
        · exact ⟨_, rfl⟩
        · exact ⟨_, rfl⟩

/-- Witness for C5: a batch size of 2 with precomputation enabled yields the
configuration error; batch size 1 yields a successful result. -/
theorem c5_precompute_batch_size_check_witness :
    preparePrecomputations ⟨true, 2, 4, 0, 0, 1, 0, 0, "zero"⟩
      = Except.error
          "Precomputation is only supported with batch size 1. This will be supported in future." ∧
    ∃ l, preparePrecomputations ⟨true, 1, 4, 4, 4, 1, 0, 0, "zero"⟩ = Except.ok l :=
  ⟨(c5_precompute_batch_size_check ⟨true, 2, 4, 0, 0, 1, 0, 0, "zero"⟩).1 rfl (by decide),
   (c5_precompute_batch_size_check ⟨true, 1, 4, 4, 4, 1, 0, 0, "zero"⟩).2 rfl⟩

/-- C6: when the completeness check reports an already-complete cache (both
artifact counts equal to the dataset length), `prepare_precomputations`
performs zero encoding work: it loads no encoder models, calls neither
`prepare_conditions` nor `prepare_latents`, writes no artifact, and only
installs the dataloader over the existing cache. -/
theorem c6_precompute_idempotent (cfg : PrecompConfig)
    (hp : cfg.precomputeConditions = true) (hb : cfg.batchSize = 1)
    (hc : cfg.conditionCount = cfg.datasetLen) (hl : cfg.latentCount = cfg.datasetLen) :
    preparePrecomputations cfg = Except.ok [PrecompAction.buildPrecompDataloader] := by
  simp [preparePrecomputations, hp, hb, shouldPerformPrecomputation, hc, hl]

/-- Witness for C6: a complete cache of 4 conditions and 4 latents over a
4-sample dataset short-circuits to installing the cache-backed dataloader. -/
theorem c6_precompute_idempotent_witness :
    preparePrecomputations ⟨true, 1, 4, 4, 4, 2, 0, 1 / 20, "zero"⟩
      = Except.ok [PrecompAction.buildPrecompDataloader] :=
  c6_precompute_idempotent ⟨true, 1, 4, 4, 4, 2, 0, 1 / 20, "zero"⟩ rfl rfl rfl rfl

/-- C7: the validation runner assigns prompt index `i` exactly to the process
of rank `i mod P`: the union of the per-rank index sets is `{0..V-1}`, the
sets of two different ranks are disjoint, and every index a rank generates
satisfies `i mod P = rank` and `i < V`. -/
theorem c7_validation_round_robin (P V : ℕ) (hP : 1 ≤ P) :
    (Finset.range P).biUnion (fun r => validationAssigned P r V) = Finset.range V ∧
    (∀ r s, r ≠ s → Disjoint (validationAssigned P r V) (validationAssigned P s V)) ∧
    (∀ r, ∀ i ∈ validationAssigned P r V, i % P = r ∧ i < V) := by
  refine ⟨?_, ?_, ?_⟩
  · ext i
    simp only [Finset.mem_biUnion, Finset.mem_range, validationAssigned, Finset.mem_filter]
    constructor
    · rintro ⟨r, _, hi, _⟩
      exact hi
    · intro hi
      exact ⟨i % P, Nat.mod_lt i hP, hi, rfl⟩
  · intro r s hrs
    refine Finset.disjoint_left.mpr ?_
    intro i hi his
    simp only [validationAssigned, Finset.mem_filter] at hi his
    omega
  · intro r i hi
    simp only [validationAssigned, Finset.mem_filter, Finset.mem_range] at hi
    exact ⟨hi.2, hi.1⟩

/-- Witness for C7: with 2 processes and 3 prompts the two assigned sets
cover `{0, 1, 2}` exactly. -/
theorem c7_validation_round_robin_witness :
    (Finset.range 2).biUnion (fun r => validationAssigned 2 r 3) = Finset.range 3 :=
  (c7_validation_round_robin 2 3 (by decide)).1

/-- C8: with caption dropout probability 1 the dropout branch fires on every
batch: under technique "empty" every prompt is replaced by the empty string
before conditioning; under technique "zero" the conditioned prompt embeddings
are entirely zero, the attention mask entirely false, and the pooled
embedding (when present) entirely zero.  A single configuration holds one
technique string, so the two branches are never both applied to a batch. -/
theorem c8_caption_dropout (p r1 r2 : ℚ) (prompts : List String)
    (tc : TextConditions) (prep : List String → TextConditions)
    (hp : p = 1) (h1 : r1 < 1) (h2 : r2 < 1) :
    trainStepTextConditions false "empty" p r1 r2 prompts tc prep
      = prep (List.replicate prompts.length "") ∧
    trainStepTextConditions false "zero" p r1 r2 prompts tc prep
      = applyZeroDropout (prep prompts) ∧
    (∀ x ∈ (trainStepTextConditions false "zero" p r1 r2 prompts tc prep).promptEmbeds,
      x = 0) ∧
    (∀ m ∈ (trainStepTextConditions false "zero" p r1 r2 prompts tc prep).promptAttentionMask,
      m = false) ∧
    (∀ l ∈ (trainStepTextConditions false "zero" p r1 r2 prompts tc prep).pooledPromptEmbeds,
      ∀ x ∈ l, x = 0) ∧
    (∀ technique : String, ¬(technique = "empty" ∧ technique = "zero")) := by
  subst hp
  have hez : ¬(("empty" : String) = "zero" ∧ r2 < 1) := fun h => absurd h.1 (by decide)
  have hzz : (("zero" : String) = "zero" ∧ r2 < 1) := ⟨rfl, h2⟩
  have hee : (("empty" : String) = "empty" ∧ r1 < 1) := ⟨rfl, h1⟩
  have hze : ¬(("zero" : String) = "empty" ∧ r1 < 1) := fun h => absurd h.1 (by decide)
  have hEmpty : trainStepTextConditions false "empty" 1 r1 r2 prompts tc prep
      = prep (List.replicate prompts.length "") := by
    unfold trainStepTextConditions
    rw [if_neg hez, if_pos rfl, if_pos hee]
  have hZero : trainStepTextConditions false "zero" 1 r1 r2 prompts tc prep
      = applyZeroDropout (prep prompts) := by
    unfold trainStepTextConditions
    rw [if_pos hzz, if_pos rfl, if_neg hze]
  refine ⟨hEmpty, hZero, ?_, ?_, ?_, ?_⟩
  · rw [hZero]
    simp [applyZeroDropout]
  · rw [hZero]
    simp [applyZeroDropout]
  · rw [hZero]
    intro l hl x hx
    simp only [applyZeroDropout, Option.mem_def, Option.map_eq_some'] at hl
    obtain ⟨l0, _, rfl⟩ := hl
    simp only [List.mem_map] at hx
    obtain ⟨y, _, rfl⟩ := hx
    rfl
  · rintro technique ⟨he, hz⟩
    rw [he] at hz
    exact absurd hz (by decide)

/-- Witness for C8 at probability 1, draws 0, a one-prompt batch and a
conditioning function returning a fixed tensor bundle. -/
theorem c8_caption_dropout_witness :
    trainStepTextConditions false "empty" 1 0 0 ["a cat"] ⟨[7], [true], none⟩
        (fun _ => ⟨[2], [true], some [3]⟩)
      = (fun _ : List String => (⟨[2], [true], some [3]⟩ : TextConditions))
          (List.replicate (["a cat"] : List String).length "") ∧
    trainStepTextConditions false "zero" 1 0 0 ["a cat"] ⟨[7], [true], none⟩
        (fun _ => ⟨[2], [true], some [3]⟩)
      = applyZeroDropout ⟨[2], [true], some [3]⟩ :=
  ⟨(c8_caption_dropout 1 0 0 ["a cat"] ⟨[7], [true], none⟩ (fun _ => ⟨[2], [true], some [3]⟩)
      rfl (by decide) (by decide)).1,
   (c8_caption_dropout 1 0 0 ["a cat"] ⟨[7], [true], none⟩ (fun _ => ⟨[2], [true], some [3]⟩)
      rfl (by decide) (by decide)).2.1⟩

/-- C9 counterexample: with `mixed_precision = "bf16"` the load hook performs
no upcast at all (`load_model_hook` only checks `== "fp16"`, trainer.py line
461): a trainable adapter parameter stored in bf16 stays in bf16 instead of
being upcast to float32 as the claim states. -/
theorem c9_counterexample :
    loadHookPrecision "bf16" [⟨true, DType.bf16⟩] = [⟨true, DType.bf16⟩] ∧
    DType.bf16 ≠ DType.fp32 := by
  decide

/-- C9 amended: the upcast happens only under `mixed_precision = "fp16"`:
there, every trainable adapter parameter is cast to float32 while the frozen
backbone parameters are left exactly as they were; under `"bf16"` the hook
leaves all parameters untouched. -/
theorem c9_load_hook_upcast (ps : List Param) :
    loadHookPrecision "bf16" ps = ps ∧
    (∀ q ∈ loadHookPrecision "fp16" ps, q.requiresGrad = true → q.dtype = DType.fp32) ∧
    (loadHookPrecision "fp16" ps).filter (fun q => !q.requiresGrad)
      = ps.filter (fun q => !q.requiresGrad) := by
  refine ⟨?_, ?_, ?_⟩
  · rw [loadHookPrecision, if_neg (by decide)]
  · rw [loadHookPrecision, if_pos rfl]
    intro q hq hgrad
    simp only [castTrainingParams, List.mem_map] at hq
    obtain ⟨a, _, rfl⟩ := hq
    by_cases ha : a.requiresGrad
    · simp [ha]
    · rw [if_neg ha] at hgrad ⊢
      exact absurd hgrad ha
  · rw [loadHookPrecision, if_pos rfl]
    induction ps with
    | nil => rfl
    | cons a t ih =>
      by_cases ha : a.requiresGrad
      · simp only [castTrainingParams, List.map_cons, if_pos ha] at ih ⊢
        simp [List.filter_cons, ha, ih]
      · simp only [castTrainingParams, List.map_cons, if_neg ha] at ih ⊢
        simp [List.filter_cons, ha, ih]

/-- Witness for C9 amended: a trainable bf16 parameter and a frozen bf16
parameter — under bf16 nothing changes, under fp16 the trainable one becomes
fp32 while the frozen one is preserved. -/
theorem c9_load_hook_upcast_witness :
    loadHookPrecision "bf16" [⟨true, DType.bf16⟩, ⟨false, DType.bf16⟩]
      = [⟨true, DType.bf16⟩, ⟨false, DType.bf16⟩] ∧
    (⟨true, DType.fp32⟩ : Param).dtype = DType.fp32 ∧
    (loadHookPrecision "fp16" [⟨true, DType.bf16⟩, ⟨false, DType.bf16⟩]).filter
        (fun q => !q.requiresGrad)
      = [⟨false, DType.bf16⟩] :=
  ⟨(c9_load_hook_upcast [⟨true, DType.bf16⟩, ⟨false, DType.bf16⟩]).1,
   (c9_load_hook_upcast [⟨true, DType.bf16⟩]).2.1 ⟨true, DType.fp32⟩ (by decide) rfl,
   ((c9_load_hook_upcast [⟨true, DType.bf16⟩, ⟨false, DType.bf16⟩]).2.2).trans (by decide)⟩

/-- C10: with precomputed conditions, caption dropout with technique "zero"
is still effective — when the draw is below `caption_dropout_p` the loaded
prompt embeddings are zeroed and the attention mask set to false, otherwise
the batch conditions pass through — whereas technique "empty" has no effect
in precomputed mode (its branch lives in the live-encoding path only), and
the setup phase merely logs a warning when dropout is positive with
technique "empty". -/
theorem c10_precomputed_caption_dropout (p r1 r2 : ℚ) (prompts : List String)
    (tc : TextConditions) (prep : List String → TextConditions) :
    (r2 < p →
      trainStepTextConditions true "zero" p r1 r2 prompts tc prep = applyZeroDropout tc ∧
      (∀ x ∈ (trainStepTextConditions true "zero" p r1 r2 prompts tc prep).promptEmbeds,
        x = 0) ∧
      (∀ m ∈ (trainStepTextConditions true "zero" p r1 r2 prompts tc prep).promptAttentionMask,
        m = false)) ∧
    (¬r2 < p → trainStepTextConditions true "zero" p r1 r2 prompts tc prep = tc) ∧
    trainStepTextConditions true "empty" p r1 r2 prompts tc prep = tc ∧
    (∀ cfg : PrecompConfig, cfg.precomputeConditions = true → cfg.batchSize = 1 →
      shouldPerformPrecomputation cfg.conditionCount cfg.latentCount cfg.datasetLen = true →
      0 < cfg.captionDropoutP → cfg.captionDropoutTechnique = "empty" →
      ∃ l, preparePrecomputations cfg = Except.ok l ∧ PrecompAction.warnCaptionDropout ∈ l) := by
  refine ⟨?_, ?_, ?_, ?_⟩
  · intro hr
    have hz : trainStepTextConditions true "zero" p r1 r2 prompts tc prep
        = applyZeroDropout tc := by
      unfold trainStepTextConditions
      rw [if_pos ⟨rfl, hr⟩, if_neg (by decide)]
    refine ⟨hz, ?_, ?_⟩ <;> rw [hz] <;> simp [applyZeroDropout]
  · intro hr
    unfold trainStepTextConditions
    rw [if_neg (fun h => hr h.2), if_neg (by decide)]
  · unfold trainStepTextConditions
    rw [if_neg (fun h => absurd h.1 (by decide)), if_neg (by decide)]
  · intro cfg hpc hbs hsp hcp htech
    have heq : preparePrecomputations cfg = Except.ok
        ([PrecompAction.loadConditionModels]
          ++ [PrecompAction.warnCaptionDropout]
          ++ conditionPhaseActions cfg.datasetLen cfg.numProcesses cfg.processIndex
          ++ [PrecompAction.loadLatentModels]
          ++ latentPhaseActions cfg.datasetLen cfg.numProcesses cfg.processIndex
          ++ [PrecompAction.barrier, PrecompAction.buildPrecompDataloader]) := by
      rw [preparePrecomputations, if_neg (by rw [hpc]; decide), if_neg (by rw [hbs]; decide),
        if_neg (by rw [hsp]; decide), if_pos ⟨hcp, htech⟩]
    exact ⟨_, heq, by simp⟩

/-- Witness for C10: a concrete precomputed batch where the "zero" technique
zeroes the loaded conditions at probability 1, passes them through at
probability 0, the "empty" technique never touches them, and a
precomputation setup with dropout 1/20 and technique "empty" emits the
warning action. -/
theorem c10_precomputed_caption_dropout_witness :
    trainStepTextConditions true "zero" 1 0 0 [] ⟨[5], [true], some [3]⟩ (fun _ => ⟨[], [], none⟩)
      = applyZeroDropout ⟨[5], [true], some [3]⟩ ∧
    trainStepTextConditions true "zero" 0 0 0 [] ⟨[5], [true], some [3]⟩ (fun _ => ⟨[], [], none⟩)
      = ⟨[5], [true], some [3]⟩ ∧
    trainStepTextConditions true "empty" 1 0 0 [] ⟨[5], [true], some [3]⟩ (fun _ => ⟨[], [], none⟩)
      = ⟨[5], [true], some [3]⟩ ∧
    ∃ l, preparePrecomputations ⟨true, 1, 2, 0, 0, 1, 0, 1 / 20, "empty"⟩ = Except.ok l ∧
      PrecompAction.warnCaptionDropout ∈ l :=
  ⟨((c10_precomputed_caption_dropout 1 0 0 [] ⟨[5], [true], some [3]⟩
      (fun _ => ⟨[], [], none⟩)).1 (by norm_num)).1,
   (c10_precomputed_caption_dropout 0 0 0 [] ⟨[5], [true], some [3]⟩
      (fun _ => ⟨[], [], none⟩)).2.1 (by norm_num),
   (c10_precomputed_caption_dropout 1 0 0 [] ⟨[5], [true], some [3]⟩
      (fun _ => ⟨[], [], none⟩)).2.2.1,
   (c10_precomputed_caption_dropout 1 0 0 [] ⟨[], [], none⟩ (fun _ => ⟨[], [], none⟩)).2.2.2
      ⟨true, 1, 2, 0, 0, 1, 0, 1 / 20, "empty"⟩ rfl rfl (by decide) (by norm_num) rfl⟩

/-- In the inner step loop, a checkpoint save only ever happens on a
micro-batch whose gradients synchronize: the save is nested inside the
`if accelerator.sync_gradients:` block (trainer.py lines 741-753). -/
theorem stepEvents_ckpt_needs_sync (T c : ℕ) (v : Option ℕ) (flags : List Bool) :
    ∀ gs, ∀ e ∈ (stepEvents T c v gs flags).2, e.checkpointSaved = true →
      e.syncGradients = true := by
  induction flags with
  | nil =>
    intro gs e he
    simp [stepEvents] at he
  | cons u rest ih =>
    intro gs e he
    simp only [stepEvents] at he
    split at he <;> split at he
    · simp only [List.mem_singleton] at he
      subst he
      intro h
      cases u
      · exact absurd h (by simp)
      · rfl
    · simp only [List.mem_cons] at he
      rcases he with rfl | he
      · intro h
        cases u
        · exact absurd h (by simp)
        · rfl
      · exact ih _ e he
    · simp only [List.mem_singleton] at he
      subst he
      intro h
      cases u
      · exact absurd h (by simp)
      · rfl
    · simp only [List.mem_cons] at he
      rcases he with rfl | he
      · intro h
        cases u
        · exact absurd h (by simp)
        · rfl
      · exact ih _ e he

/-- Lifting `stepEvents_ckpt_needs_sync` through the epoch loop. -/
theorem epochEvents_ckpt_needs_sync (T N L c : ℕ) (v : Option ℕ) (k : ℕ) :
    ∀ gs, ∀ e ∈ (epochEvents T N L c v gs k).2, e.checkpointSaved = true →
      e.syncGradients = true := by
  induction k with
  | zero =>
    intro gs e he
    simp [epochEvents] at he
  | succ k ih =>
    intro gs e he
    simp only [epochEvents, List.mem_append] at he
    rcases he with he | he
    · exact stepEvents_ckpt_needs_sync T c v (epochFlags N L) gs e he
    · exact ih _ e he

/-- C4 counterexample: with accumulation window 2, 4 micro-batches per epoch,
`train_steps = 2` and `validation_every_n_steps = 2`, the very first
micro-batch of the run is strictly inside the first accumulation window (no
gradient synchronization), yet step-triggered validation runs on it
(`global_step % validation_every_n_steps == 0` is checked on every
micro-batch, trainer.py lines 756-761, outside the `sync_gradients` block):
the claim that no step-triggered validation runs strictly inside an
accumulation window is false. -/
theorem c4_counterexample :
    (trainEvents 2 2 4 1000 (some 2) 0 0).2.any
        (fun e => e.validationRan && !e.syncGradients) = true ∧
    (trainEvents 2 2 4 1000 (some 2) 0 0).2.head?
      = some ⟨false, 0, false, true⟩ := by
  decide

/-- C4 amended: checkpoint saves are indeed triggered only at
gradient-synchronization boundaries (the save is nested inside the
`sync_gradients` block), but the step-triggered validation check is evaluated
on every micro-batch, so validation can run on micro-batches strictly inside
an accumulation window. -/
theorem c4_checkpoint_only_at_sync (T N L c gs0 firstEpoch : ℕ) (v : Option ℕ) :
    ∀ e ∈ (trainEvents T N L c v gs0 firstEpoch).2, e.checkpointSaved = true →
      e.syncGradients = true :=
  epochEvents_ckpt_needs_sync T N L c v _ gs0

/-- Witness for C4 amended: in a one-step run whose single micro-batch saves
a checkpoint, that micro-batch is a synchronization boundary. -/
theorem c4_checkpoint_only_at_sync_witness :
    (⟨true, 1, true, false⟩ : MicroEvent).syncGradients = true :=
  c4_checkpoint_only_at_sync 1 1 1 1 0 0 none ⟨true, 1, true, false⟩ (by decide) rfl

/-- Unfolding `stepEvents` on a non-synchronizing micro-batch that does not
reach `train_steps`. -/
theorem stepEvents_cons_false (T c : ℕ) (v : Option ℕ) (gs : ℕ) (rest : List Bool)
    (h : ¬T ≤ gs) :
    stepEvents T c v gs (false :: rest)
      = ((stepEvents T c v gs rest).1,
         ⟨false, gs, false, v.elim false (fun x => gs % x == 0)⟩
           :: (stepEvents T c v gs rest).2) := by
  simp [stepEvents, h]

/-- Unfolding `stepEvents` on a non-synchronizing micro-batch at which the
break fires. -/
theorem stepEvents_cons_false_break (T c : ℕ) (v : Option ℕ) (gs : ℕ) (rest : List Bool)
    (h : T ≤ gs) :
    stepEvents T c v gs (false :: rest)
      = (gs, [⟨false, gs, false, v.elim false (fun x => gs % x == 0)⟩]) := by
  simp [stepEvents, h]

/-- Unfolding `stepEvents` on a synchronizing micro-batch whose update does
not reach `train_steps`. -/
theorem stepEvents_cons_true (T c : ℕ) (v : Option ℕ) (gs : ℕ) (rest : List Bool)
    (h : ¬T ≤ gs + 1) :
    stepEvents T c v gs (true :: rest)
      = ((stepEvents T c v (gs + 1) rest).1,
         ⟨true, gs + 1, (gs + 1) % c == 0, v.elim false (fun x => (gs + 1) % x == 0)⟩
           :: (stepEvents T c v (gs + 1) rest).2) := by
  simp [stepEvents, h]

/-- Unfolding `stepEvents` on a synchronizing micro-batch whose update
reaches `train_steps`: the loop breaks right after this micro-batch. -/
theorem stepEvents_cons_true_break (T c : ℕ) (v : Option ℕ) (gs : ℕ) (rest : List Bool)
    (h : T ≤ gs + 1) :
    stepEvents T c v gs (true :: rest)
      = (gs + 1,
         [⟨true, gs + 1, (gs + 1) % c == 0, v.elim false (fun x => (gs + 1) % x == 0)⟩]) := by
  simp [stepEvents, h]

/-- If the synchronizations of the remaining flags cannot reach
`train_steps`, the inner loop consumes them all: the final global step grows
by the number of synchronizing micro-batches, each contributing one optimizer
update to the trace. -/
theorem stepEvents_no_break (T c : ℕ) (v : Option ℕ) (flags : List Bool) :
    ∀ gs, gs + flags.count true < T →
      (stepEvents T c v gs flags).1 = gs + flags.count true ∧
      (stepEvents T c v gs flags).2.countP (fun e => e.syncGradients) = flags.count true := by
  induction flags with
  | nil =>
    intro gs h
    exact ⟨rfl, rfl⟩
  | cons u rest ih =>
    intro gs h
    cases u
    · have hc : (false :: rest).count true = rest.count true := by simp
      rw [hc] at h ⊢
      have hbr : ¬T ≤ gs := by omega
      rw [stepEvents_cons_false T c v gs rest hbr]
      have ihr := ih gs h
      refine ⟨ihr.1, ?_⟩
      simp only [List.countP_cons, ihr.2]
      simp
    · have hc : (true :: rest).count true = rest.count true + 1 := by simp
      rw [hc] at h ⊢
      have hbr : ¬T ≤ gs + 1 := by omega
      rw [stepEvents_cons_true T c v gs rest hbr]
      have ihr := ih (gs + 1) (by omega)
      constructor
      · show (stepEvents T c v (gs + 1) rest).1 = gs + (rest.count true + 1)
        rw [ihr.1]
        omega
      · show List.countP _ (_ :: (stepEvents T c v (gs + 1) rest).2) = rest.count true + 1
        simp only [List.countP_cons, ihr.2]
        simp

/-- If the loop starts below `train_steps` and the synchronizations of the
remaining flags suffice to reach it, the inner loop stops exactly at
`train_steps`, having performed exactly the missing number of optimizer
updates. -/
theorem stepEvents_break (T c : ℕ) (v : Option ℕ) (flags : List Bool) :
    ∀ gs, gs < T → T ≤ gs + flags.count true →
      (stepEvents T c v gs flags).1 = T ∧
      (stepEvents T c v gs flags).2.countP (fun e => e.syncGradients) = T - gs := by
  induction flags with
  | nil =>
    intro gs h1 h2
    simp only [List.count_nil] at h2
    exact absurd h1 (by omega)
  | cons u rest ih =>
    intro gs h1 h2
    cases u
    · have hc : (false :: rest).count true = rest.count true := by simp
      rw [hc] at h2
      have hbr : ¬T ≤ gs := by omega
      rw [stepEvents_cons_false T c v gs rest hbr]
      have ihr := ih gs h1 h2
      refine ⟨ihr.1, ?_⟩
      simp only [List.countP_cons, ihr.2]
      simp
    · have hc : (true :: rest).count true = rest.count true + 1 := by simp
      rw [hc] at h2
      by_cases hbr : T ≤ gs + 1
      · rw [stepEvents_cons_true_break T c v gs rest hbr]
        constructor
        · show gs + 1 = T
          omega
        · show List.countP (fun e : MicroEvent => e.syncGradients)
              ([⟨true, gs + 1, (gs + 1) % c == 0,
                 v.elim false (fun x => (gs + 1) % x == 0)⟩] : List MicroEvent)
              = T - gs
          simp [List.countP_cons]
          omega
      · rw [stepEvents_cons_true T c v gs rest hbr]
        have ihr := ih (gs + 1) (by omega) (by omega)
        refine ⟨ihr.1, ?_⟩
        show List.countP _ (_ :: (stepEvents T c v (gs + 1) rest).2) = T - gs
        simp only [List.countP_cons, ihr.2]
        simp
        omega

/-- Counting `true` through a map. -/
theorem count_true_map {α : Type} (l : List α) (f : α → Bool) :
    (l.map f).count true = l.countP f := by
  induction l with
  | nil => rfl
  | cons a t ih =>
    cases hfa : f a <;> simp [List.count_cons, List.countP_cons, hfa, ih]

/-- `List.countP` over `List.range` as a `Finset` cardinality. -/
theorem countP_range (f : ℕ → Bool) (L : ℕ) :
    (List.range L).countP f = ((Finset.range L).filter (fun m => f m = true)).card := by
  induction L with
  | zero => rfl
  | succ n ih =>
    rw [List.range_succ, List.countP_append, Finset.range_succ, Finset.filter_insert]
    cases hf : f n
    · rw [if_neg (by simp [hf])]
      simp [ih, hf]
    · rw [if_pos (by simp [hf]), Finset.card_insert_of_not_mem (fun hmem =>
        absurd (Finset.mem_range.mp (Finset.mem_filter.mp hmem).1) (lt_irrefl n))]
      simp [ih, hf]

/-- The number of synchronizing micro-batches of a full epoch is exactly
`num_update_steps_per_epoch = ceil(L / N)`: one per completed accumulation
window plus, when the last window is incomplete, one at the end of the
dataloader. -/
theorem card_syncAt_filter (N L : ℕ) (hN : 1 ≤ N) :
    ((Finset.range L).filter (fun m => syncAt N L m = true)).card
      = numUpdateStepsPerEpoch L N := by
  have hpred : ∀ m ∈ Finset.range L, (syncAt N L m = true ↔ (N ∣ (m + 1) ∨ m + 1 = L)) := by
    intro m _
    simp [syncAt, Nat.dvd_iff_mod_eq_zero]
  rw [Finset.filter_congr hpred]
  by_cases hdvd : N ∣ L
  · have hcollapse : (Finset.range L).filter (fun m => N ∣ (m + 1) ∨ m + 1 = L)
        = (Finset.range L).filter (fun m => N ∣ (m + 1)) := by
      apply Finset.filter_congr
      intro m _
      constructor
      · rintro (h | h)
        · exact h
        · exact h ▸ hdvd
      · exact Or.inl
    rw [hcollapse, Nat.card_multiples]
    obtain ⟨k, rfl⟩ := hdvd
    have h1 : N * k / N = k := by
      rw [mul_comm]
      exact Nat.mul_div_cancel k (by omega)
    have h2 : (N * k + N - 1) / N = k := by
      rw [show N * k + N - 1 = N * k + (N - 1) by omega, Nat.mul_add_div (by omega),
        show (N - 1) / N = 0 from Nat.div_eq_of_lt (by omega)]
      omega
    rw [numUpdateStepsPerEpoch, h1, h2]
  · rcases Nat.eq_zero_or_pos L with rfl | hL1
    · exact absurd (dvd_zero N) hdvd
    · have hsplit : (Finset.range L).filter (fun m => N ∣ (m + 1) ∨ m + 1 = L)
          = insert (L - 1) ((Finset.range L).filter (fun m => N ∣ (m + 1))) := by
        ext m
        simp only [Finset.mem_filter, Finset.mem_insert, Finset.mem_range]
        constructor
        · rintro ⟨hm, h | h⟩
          · exact Or.inr ⟨hm, h⟩
          · exact Or.inl (by omega)
        · rintro (rfl | ⟨hm, h⟩)
          · exact ⟨by omega, Or.inr (by omega)⟩
          · exact ⟨hm, Or.inl h⟩
      have hnotmem : L - 1 ∉ (Finset.range L).filter (fun m => N ∣ (m + 1)) := by
        intro hmem
        have hd := (Finset.mem_filter.mp hmem).2
        rw [show L - 1 + 1 = L by omega] at hd
        exact hdvd hd
      rw [hsplit, Finset.card_insert_of_not_mem hnotmem, Nat.card_multiples]
      have hrne : L % N ≠ 0 := fun h => hdvd (Nat.dvd_iff_mod_eq_zero.mpr h)
      have hq := Nat.div_add_mod L N
      have hr : L % N < N := Nat.mod_lt _ (by omega)
      have harith : (L + N - 1) / N = L / N + 1 := by
        conv_lhs => rw [← hq]
        rw [show N * (L / N) + L % N + N - 1 = N * (L / N) + (L % N - 1 + N) by omega,
          Nat.mul_add_div (by omega), Nat.add_div_right _ (by omega),
          show (L % N - 1) / N = 0 from Nat.div_eq_of_lt (by omega)]
      rw [numUpdateStepsPerEpoch, harith]

/-- A full epoch has `num_update_steps_per_epoch` synchronizing
micro-batches. -/
theorem count_epochFlags (N L : ℕ) (hN : 1 ≤ N) :
    (epochFlags N L).count true = numUpdateStepsPerEpoch L N := by
  rw [epochFlags, count_true_map, countP_range, card_syncAt_filter N L hN]

/-- Ceiling division, lower bound: `ceil(Y / X) * X ≥ Y`. -/
theorem ceil_mul_ge (Y X : ℕ) (hX : 1 ≤ X) : Y ≤ (Y + X - 1) / X * X := by
  rcases Nat.eq_zero_or_pos Y with rfl | hY
  · exact Nat.zero_le _
  · have h := Nat.div_add_mod (Y + X - 1) X
    have hm : (Y + X - 1) % X < X := Nat.mod_lt _ (by omega)
    rw [mul_comm]
    set A := X * ((Y + X - 1) / X) with hA
    set m := (Y + X - 1) % X with hmdef
    omega

/-- Ceiling division, tightness: `(ceil(Y / X) - 1) * X < Y` for `Y ≥ 1`. -/
theorem ceil_pred_mul_lt (Y X : ℕ) (hX : 1 ≤ X) (hY : 1 ≤ Y) :
    ((Y + X - 1) / X - 1) * X < Y := by
  have h := Nat.div_add_mod (Y + X - 1) X
  have hm : (Y + X - 1) % X < X := Nat.mod_lt _ (by omega)
  have hsub : ((Y + X - 1) / X - 1) * X = (Y + X - 1) / X * X - X := by
    rw [Nat.sub_mul, one_mul]
  have hcm : (Y + X - 1) / X * X = X * ((Y + X - 1) / X) := mul_comm _ _
  rw [hsub, hcm]
  set A := X * ((Y + X - 1) / X) with hA
  set m := (Y + X - 1) % X with hmdef
  omega

/-- The epoch loop, entered with `gs < train_steps`, enough remaining epochs
to reach `train_steps`, but no spare epoch beyond the one in which
`train_steps` is reached: it ends exactly at `train_steps` with exactly the
missing number of optimizer updates. -/
theorem epochEvents_exact (T N L c : ℕ) (v : Option ℕ) (hN : 1 ≤ N) (hL : 1 ≤ L) :
    ∀ e, ∀ gs, gs < T → T ≤ gs + e * numUpdateStepsPerEpoch L N →
      gs + (e - 1) * numUpdateStepsPerEpoch L N < T →
      (epochEvents T N L c v gs e).1 = T ∧
      (epochEvents T N L c v gs e).2.countP (fun ev => ev.syncGradients) = T - gs := by
  have hS : (epochFlags N L).count true = numUpdateStepsPerEpoch L N :=
    count_epochFlags N L hN
  have hS1 : 1 ≤ numUpdateStepsPerEpoch L N := by
    rw [numUpdateStepsPerEpoch, Nat.le_div_iff_mul_le (by omega)]
    omega
  set S := numUpdateStepsPerEpoch L N with hSdef
  intro e
  induction e with
  | zero =>
    intro gs h1 h2 h3
    simp only [Nat.zero_mul, Nat.add_zero] at h2
    exact absurd h1 (by omega)
  | succ e ih =>
    intro gs h1 h2 h3
    have hmul : (e + 1) * S = e * S + S := by ring
    simp only [Nat.add_sub_cancel] at h3
    by_cases hbr : T ≤ gs + S
    · have he0 : e = 0 := by
        rcases Nat.eq_zero_or_pos e with h0 | hpos
        · exact h0
        · have hle : S ≤ e * S := Nat.le_mul_of_pos_left S hpos
          omega
      subst he0
      have hb := stepEvents_break T c v (epochFlags N L) gs h1 (by rw [hS]; omega)
      constructor
      · simp only [epochEvents]
        exact hb.1
      · simp only [epochEvents, List.append_nil]
        exact hb.2
    · push_neg at hbr
      have hpos : 0 < e := by
        rcases Nat.eq_zero_or_pos e with rfl | hp
        · simp only [Nat.zero_mul, Nat.zero_add] at hmul
          omega
        · exact hp
      have hle : S ≤ e * S := Nat.le_mul_of_pos_left S hpos
      have ha := stepEvents_no_break T c v (epochFlags N L) gs (by rw [hS]; omega)
      rw [hS] at ha
      have hsub : (e - 1) * S = e * S - S := by
        rw [Nat.sub_mul, one_mul]
      have ih' := ih (gs + S) hbr (by omega) (by omega)
      constructor
      · simp only [epochEvents]
        rw [ha.1]
        exact ih'.1
      · simp only [epochEvents, List.countP_append]
        rw [ha.1, ha.2, ih'.2]
        omega

/-- C3 counterexample: resume from the checkpoint at step 3
(`checkpointing_steps = 3`) with `train_steps = 10`, accumulation window 1
and 4 micro-batches per epoch.  `num_update_steps_per_epoch = 4`,
`train_epochs = ceil(10/4) = 3`, and the resume point is
`global_step = 3, first_epoch = 3 // 4 = 0`, so three epochs run.
`global_step` reaches 10 in the middle of the second of them and the `break`
exits that epoch, but the third epoch still begins and performs one more
optimizer update before its own break check fires: the loop ends at
`global_step = 11` with 8 updates executed, i.e. an optimizer-updating step
runs after `global_step == train_steps`, refuting the claim. -/
theorem c3_counterexample :
    resumePoint 3 (numUpdateStepsPerEpoch 4 1) = (3, 0) ∧
    (trainEvents 10 1 4 3 none 3 0).1 = 11 ∧
    (trainEvents 10 1 4 3 none 3 0).2.countP (fun ev => ev.syncGradients) = 8 := by
  decide

/-- C3 amended: whenever the run starts at a global step that is a whole
number of epochs, i.e. `global_step = q * num_update_steps_per_epoch` with
`first_epoch = q` (in particular every cold start, `q = 0`), and that step is
below `train_steps`, the loop ends with `global_step = train_steps` exactly,
performing exactly `train_steps - global_step` optimizer updates and none
after `global_step` reaches `train_steps` — even when that happens mid-epoch. -/
theorem c3_train_loop_stops_at_train_steps (T N L c q : ℕ) (v : Option ℕ)
    (hN : 1 ≤ N) (hL : 1 ≤ L) (hq : q * numUpdateStepsPerEpoch L N < T) :
    resumePoint (q * numUpdateStepsPerEpoch L N) (numUpdateStepsPerEpoch L N)
      = (q * numUpdateStepsPerEpoch L N, q) ∧
    (trainEvents T N L c v (q * numUpdateStepsPerEpoch L N) q).1 = T ∧
    (trainEvents T N L c v (q * numUpdateStepsPerEpoch L N) q).2.countP
        (fun ev => ev.syncGradients) = T - q * numUpdateStepsPerEpoch L N := by
  have hS1 : 1 ≤ numUpdateStepsPerEpoch L N := by
    rw [numUpdateStepsPerEpoch, Nat.le_div_iff_mul_le (by omega)]
    omega
  set S := numUpdateStepsPerEpoch L N with hSdef
  have hT1 : 1 ≤ T := by omega
  have hTE : T ≤ trainEpochs T S * S := ceil_mul_ge T S hS1
  have hTEpred : (trainEpochs T S - 1) * S < T := ceil_pred_mul_lt T S hS1 hT1
  have hqE : q < trainEpochs T S := by
    by_contra hc
    push_neg at hc
    have := Nat.mul_le_mul_right S hc
    omega
  have hq2 : q * S ≤ trainEpochs T S * S := Nat.mul_le_mul_right S (le_of_lt hqE)
  have hEq1 : (trainEpochs T S - q) * S = trainEpochs T S * S - q * S := by
    rw [Nat.sub_mul]
  have hEq2 : (trainEpochs T S - q - 1) * S = trainEpochs T S * S - q * S - S := by
    rw [Nat.sub_mul, Nat.sub_mul, one_mul]
  have hq3 : q * S ≤ (trainEpochs T S - 1) * S :=
    Nat.mul_le_mul_right S (by omega)
  have hEq3 : (trainEpochs T S - 1) * S = trainEpochs T S * S - S := by
    rw [Nat.sub_mul, one_mul]
  have hmain := epochEvents_exact T N L c v hN hL (trainEpochs T S - q) (q * S) hq
    (by rw [← hSdef]; omega) (by rw [← hSdef, hEq2]; omega)
  refine ⟨?_, hmain.1, hmain.2⟩
  simp only [resumePoint]
  rw [Nat.mul_div_cancel q (by omega)]

/-- Witness for C3 amended: train_steps 5, accumulation 1, 2 micro-batches
per epoch, resumed at step 2 (= 1 epoch): the loop ends exactly at step 5
with 3 optimizer updates. -/
theorem c3_train_loop_stops_witness :
    resumePoint (1 * numUpdateStepsPerEpoch 2 1) (numUpdateStepsPerEpoch 2 1)
      = (1 * numUpdateStepsPerEpoch 2 1, 1) ∧
    (trainEvents 5 1 2 2 none (1 * numUpdateStepsPerEpoch 2 1) 1).1 = 5 ∧
    (trainEvents 5 1 2 2 none (1 * numUpdateStepsPerEpoch 2 1) 1).2.countP
        (fun ev => ev.syncGradients) = 5 - 1 * numUpdateStepsPerEpoch 2 1 :=
  c3_train_loop_stops_at_train_steps 5 1 2 2 1 none (by decide) (by decide) (by decide)

end Finetrainers
